import Mathlib

/-!
Verification of the photo-sorting pipeline in `sort_photos_by_location.py`.

The embedding is shallow: Python floats become `ℚ` (the geodesic distance is an
external collaborator, modelled as an abstract function argument), filesystem
paths become lists of path segments, the filesystem itself becomes the list of
existing file paths, and every filesystem mutation performed by the pipeline is
recorded in an explicit action trace.  Exceptions become `Except`/`Option`
results.  The cancellation flag is an external predicate polled sequentially;
it is modelled as a function of the poll index.
-/

/-- GPS coordinates, mirroring the `GPSCoordinates` dataclass. -/
structure GPSCoordinates where
  latitude : ℚ
  longitude : ℚ
deriving DecidableEq, Repr

/-- A named location, mirroring the `Location` dataclass. -/
structure Location where
  name : String
  address : String
  coordinates : Option GPSCoordinates
deriving DecidableEq, Repr

/-- A DMS triple as received from EXIF data: either three plain numbers or
three numerator/denominator rationals (the `IFDRational` format).  The Python
code branches on `hasattr(dms_tuple[0], 'numerator')`, treating the whole
triple uniformly, so the embedding keeps the two shapes separate. -/
inductive DMSTriple where
  | plain (d m s : ℚ)
  | rational (dn dd mn md sn sd : ℤ)
deriving DecidableEq, Repr

/-- Embedding of `dms_to_decimal`.  A zero denominator raises
`ZeroDivisionError` in Python, which the function converts into `ValueError`;
here it becomes `Except.error`.  The reference negates the result exactly when
it is the string "S" or "W". -/
def dms_to_decimal (t : DMSTriple) (ref : String) : Except String ℚ :=
  match t with
  | .plain d m s =>
    let decimal := d + m / 60 + s / 3600
    .ok (if ref = "S" ∨ ref = "W" then -decimal else decimal)
  | .rational dn dd mn md sn sd =>
    if dd = 0 ∨ md = 0 ∨ sd = 0 then
      .error "Invalid DMS format"
    else
      let degrees : ℚ := (dn : ℚ) / (dd : ℚ)
      let minutes : ℚ := (mn : ℚ) / (md : ℚ)
      let seconds : ℚ := (sn : ℚ) / (sd : ℚ)
      let decimal := degrees + minutes / 60 + seconds / 3600
      .ok (if ref = "S" ∨ ref = "W" then -decimal else decimal)

/-- The GPS portion of an image's EXIF data: the four tags
`extract_gps_from_image` reads, each possibly absent. -/
structure GpsInfo where
  gpsLatitude : Option DMSTriple
  gpsLatitudeRef : Option String
  gpsLongitude : Option DMSTriple
  gpsLongitudeRef : Option String
deriving DecidableEq, Repr

/-- The observable content of an image file, as far as
`extract_gps_from_image` is concerned.  `unreadable` covers `Image.open` or
`_getexif` raising; `noExif` covers a falsy `exif_data`; `exifData none`
covers EXIF data without a populated `GPSInfo` tag. -/
inductive ImageData where
  | unreadable
  | noExif
  | exifData (gps : Option GpsInfo)
deriving DecidableEq, Repr

/-- The body of the `try` block of `extract_gps_from_image`: any
`Except.error` corresponds to an exception flying out of the block. -/
def extract_gps_inner (img : ImageData) : Except String (Option GPSCoordinates) :=
  match img with
  | .unreadable => .error "unreadable image"
  | .noExif => .ok none
  | .exifData none => .ok none
  | .exifData (some g) =>
    match g.gpsLatitude, g.gpsLatitudeRef with
    | some latT, some latRef =>
      match dms_to_decimal latT latRef with
      | .error e => .error e
      | .ok lat =>
        match g.gpsLongitude, g.gpsLongitudeRef with
        | some lonT, some lonRef =>
          match dms_to_decimal lonT lonRef with
          | .error e => .error e
          | .ok lon => .ok (some ⟨lat, lon⟩)
        | _, _ => .ok none
    | _, _ => .ok none

/-- Embedding of `extract_gps_from_image`: the `except Exception` handler
turns every raised exception into `None`. -/
def extract_gps_from_image (img : ImageData) : Option GPSCoordinates :=
  match extract_gps_inner img with
  | .error _ => none
  | .ok v => v

/-- Distance from the photo to one location, as the loop in
`find_closest_location` sees it: a location without resolved coordinates is
skipped, which is the same as giving it infinite distance.  The geodesic
distance itself is an external collaborator (`geopy.distance.geodesic`),
passed in as the abstract function `dist`. -/
def locDist (dist : GPSCoordinates → GPSCoordinates → ℚ) (coords : GPSCoordinates)
    (l : Location) : WithTop ℚ :=
  match l.coordinates with
  | none => ⊤
  | some c => (dist coords c : WithTop ℚ)

/-- The accumulator loop of `find_closest_location`: `best` is
`closest_location`, `bestD` is `closest_distance` (initially `float('inf')`,
modelled as `⊤`), and a new candidate replaces the incumbent only under a
strict `<` comparison. -/
def findClosestLoop (dist : GPSCoordinates → GPSCoordinates → ℚ) (coords : GPSCoordinates) :
    List Location → Option Location → WithTop ℚ → Option Location × WithTop ℚ
  | [], best, bestD => (best, bestD)
  | l :: rest, best, bestD =>
    match l.coordinates with
    | none => findClosestLoop dist coords rest best bestD
    | some c =>
      if ((dist coords c : ℚ) : WithTop ℚ) < bestD then
        findClosestLoop dist coords rest (some l) ((dist coords c : ℚ) : WithTop ℚ)
      else
        findClosestLoop dist coords rest best bestD

/-- Embedding of `find_closest_location`: run the loop, then return the best
location only when one exists and its distance is `<= max_distance_km`. -/
def find_closest_location (dist : GPSCoordinates → GPSCoordinates → ℚ) (coords : GPSCoordinates)
    (locations : List Location) (max_distance_km : ℚ) : Option Location :=
  let r := findClosestLoop dist coords locations none ⊤
  match r.1 with
  | some l => if r.2 ≤ (max_distance_km : WithTop ℚ) then some l else none
  | none => none

/-- The minimum distance over a list of locations (infinite when no location
has resolved coordinates).  Spec-side definition used to state what the loop
computes. -/
def minDistW (dist : GPSCoordinates → GPSCoordinates → ℚ) (coords : GPSCoordinates) :
    List Location → WithTop ℚ
  | [] => ⊤
  | l :: rest => min (locDist dist coords l) (minDistW dist coords rest)

/-- Modelled from the spec's words for the matcher: return the first location
in input order whose distance attains the minimum over all candidates,
provided that minimum is `<= maxDistanceKm`; otherwise no match. -/
def find_closest_spec (dist : GPSCoordinates → GPSCoordinates → ℚ) (coords : GPSCoordinates)
    (locations : List Location) (max_distance_km : ℚ) : Option Location :=
  if minDistW dist coords locations ≤ (max_distance_km : WithTop ℚ) then
    locations.find? (fun l => decide (locDist dist coords l = minDistW dist coords locations))
  else none

theorem findClosestLoop_snd (dist : GPSCoordinates → GPSCoordinates → ℚ) (coords : GPSCoordinates) :
    ∀ (locs : List Location) (best : Option Location) (bestD : WithTop ℚ),
      (findClosestLoop dist coords locs best bestD).2 = min bestD (minDistW dist coords locs)
  | [], best, bestD => by
    simp [findClosestLoop, minDistW, min_eq_left (le_top : bestD ≤ ⊤)]
  | l :: rest, best, bestD => by
    rcases h : l.coordinates with _ | c
    · simp only [findClosestLoop, h, minDistW, locDist]
      rw [findClosestLoop_snd dist coords rest best bestD,
        min_eq_right (le_top : minDistW dist coords rest ≤ ⊤)]
    · simp only [findClosestLoop, h, minDistW, locDist]
      by_cases hlt : ((dist coords c : ℚ) : WithTop ℚ) < bestD
      · rw [if_pos hlt, findClosestLoop_snd dist coords rest (some l) _,
          min_eq_right (le_trans (min_le_left _ _) hlt.le)]
      · rw [if_neg hlt, findClosestLoop_snd dist coords rest best bestD, ← min_assoc,
          min_eq_left (not_lt.mp hlt)]

theorem findClosestLoop_fst (dist : GPSCoordinates → GPSCoordinates → ℚ) (coords : GPSCoordinates) :
    ∀ (locs : List Location) (best : Option Location) (bestD : WithTop ℚ),
      (findClosestLoop dist coords locs best bestD).1 =
        if minDistW dist coords locs < bestD then
          locs.find? (fun l => decide (locDist dist coords l = minDistW dist coords locs))
        else best
  | [], best, bestD => by
    simp [findClosestLoop, minDistW, not_top_lt]
  | l :: rest, best, bestD => by
    rcases h : l.coordinates with _ | c
    · have hld : locDist dist coords l = ⊤ := by simp [locDist, h]
      simp only [findClosestLoop, h, minDistW, hld,
        min_eq_right (le_top : minDistW dist coords rest ≤ ⊤)]
      rw [findClosestLoop_fst dist coords rest best bestD]
      by_cases hM : minDistW dist coords rest < bestD
      · rw [if_pos hM, if_pos hM, List.find?_cons]
        have : (decide (locDist dist coords l = minDistW dist coords rest)) = false := by
          simp [hld, (lt_top_iff_ne_top.mp (lt_of_lt_of_le hM le_top)).symm]
        rw [this]
      · rw [if_neg hM, if_neg hM]
    · have hld : locDist dist coords l = ((dist coords c : ℚ) : WithTop ℚ) := by
        simp [locDist, h]
      simp only [findClosestLoop, h, minDistW, hld]
      by_cases hlt : ((dist coords c : ℚ) : WithTop ℚ) < bestD
      · rw [if_pos hlt, findClosestLoop_fst dist coords rest (some l) _]
        have hcond : min ((dist coords c : ℚ) : WithTop ℚ) (minDistW dist coords rest) < bestD :=
          lt_of_le_of_lt (min_le_left _ _) hlt
        rw [if_pos hcond]
        by_cases hM : minDistW dist coords rest < ((dist coords c : ℚ) : WithTop ℚ)
        · rw [if_pos hM, min_eq_right hM.le, List.find?_cons]
          have : (decide (locDist dist coords l = minDistW dist coords rest)) = false := by
            simp [hld]
            exact hM.ne'
          rw [this]
        · rw [if_neg hM, min_eq_left (not_lt.mp hM), List.find?_cons]
          have : (decide (locDist dist coords l = ((dist coords c : ℚ) : WithTop ℚ))) = true := by
            simp [hld]
          rw [this]
      · rw [if_neg hlt, findClosestLoop_fst dist coords rest best bestD]
        have hd : bestD ≤ ((dist coords c : ℚ) : WithTop ℚ) := not_lt.mp hlt
        by_cases hM : minDistW dist coords rest < bestD
        · have hmin : min ((dist coords c : ℚ) : WithTop ℚ) (minDistW dist coords rest)
              = minDistW dist coords rest :=
            min_eq_right (le_of_lt (lt_of_lt_of_le hM hd))
          rw [hmin, if_pos hM, if_pos hM, List.find?_cons]
          have : (decide (locDist dist coords l = minDistW dist coords rest)) = false := by
            simp [hld]
            exact (lt_of_lt_of_le hM hd).ne'
          rw [this]
        · have hcond : ¬ min ((dist coords c : ℚ) : WithTop ℚ) (minDistW dist coords rest) < bestD := by
            rw [min_lt_iff]
            push_neg
            exact ⟨not_lt.mp hlt, not_lt.mp hM⟩
          rw [if_neg hcond, if_neg hM]

theorem minDistW_attained (dist : GPSCoordinates → GPSCoordinates → ℚ) (coords : GPSCoordinates) :
    ∀ (locs : List Location), minDistW dist coords locs ≠ ⊤ →
      ∃ l ∈ locs, locDist dist coords l = minDistW dist coords locs
  | [], h => absurd rfl h
  | l :: rest, h => by
    rcases min_cases (locDist dist coords l) (minDistW dist coords rest) with ⟨heq, _⟩ | ⟨heq, hlt⟩
    · exact ⟨l, List.mem_cons_self l rest, by rw [minDistW, heq]⟩
    · have hne : minDistW dist coords rest ≠ ⊤ := by
        intro htop
        rw [minDistW, heq] at h
        exact h htop
      obtain ⟨l', hl', hd⟩ := minDistW_attained dist coords rest hne
      exact ⟨l', List.mem_cons_of_mem l hl', by rw [minDistW, heq, hd]⟩

/-- Claim C4: for every photo coordinate and list of candidate locations,
`find_closest_location` returns the first location in input order whose
distance to the photo attains the minimum over all candidates, provided that
minimum is `<= max_distance_km`, and otherwise no match; in particular, with
two equidistant candidates the earlier one in input order is chosen. -/
theorem find_closest_location_eq_spec (dist : GPSCoordinates → GPSCoordinates → ℚ)
    (coords : GPSCoordinates) (locs : List Location) (maxD : ℚ) :
    find_closest_location dist coords locs maxD = find_closest_spec dist coords locs maxD := by
  simp only [find_closest_location, find_closest_spec]
  rw [findClosestLoop_fst dist coords locs none ⊤, findClosestLoop_snd dist coords locs none ⊤,
    min_eq_right (le_top : minDistW dist coords locs ≤ ⊤)]
  by_cases hm : minDistW dist coords locs = ⊤
  · rw [hm]
    simp [not_top_lt]
  · have hlt : minDistW dist coords locs < ⊤ := lt_top_iff_ne_top.mpr hm
    rw [if_pos hlt]
    obtain ⟨l, hl, hd⟩ := minDistW_attained dist coords locs hm
    have hsome : (locs.find? (fun l =>
        decide (locDist dist coords l = minDistW dist coords locs))).isSome := by
      rw [List.find?_isSome]
      exact ⟨l, hl, by simp [hd]⟩
    obtain ⟨l', hl'⟩ := Option.isSome_iff_exists.mp hsome
    rw [hl']

theorem findClosestLoop_filter (dist : GPSCoordinates → GPSCoordinates → ℚ)
    (coords : GPSCoordinates) :
    ∀ (locs : List Location) (best : Option Location) (bestD : WithTop ℚ),
      findClosestLoop dist coords (locs.filter (fun l => l.coordinates.isSome)) best bestD
        = findClosestLoop dist coords locs best bestD
  | [], _, _ => rfl
  | l :: rest, best, bestD => by
    rcases h : l.coordinates with _ | c
    · rw [show (l :: rest).filter (fun l => l.coordinates.isSome)
          = rest.filter (fun l => l.coordinates.isSome) by simp [List.filter_cons, h]]
      rw [findClosestLoop_filter dist coords rest best bestD]
      simp [findClosestLoop, h]
    · rw [show (l :: rest).filter (fun l => l.coordinates.isSome)
          = l :: rest.filter (fun l => l.coordinates.isSome) by simp [List.filter_cons, h]]
      simp only [findClosestLoop, h]
      by_cases hlt : ((dist coords c : ℚ) : WithTop ℚ) < bestD
      · rw [if_pos hlt, if_pos hlt, findClosestLoop_filter dist coords rest (some l) _]
      · rw [if_neg hlt, if_neg hlt, findClosestLoop_filter dist coords rest best bestD]

/-- Claim C10: locations whose `coordinates` are `None` never influence the
result of `find_closest_location` — the result on a list equals the result on
its sublist of locations with resolved coordinates; on an empty list, or when
every entry has `coordinates = None`, the result is `None`. -/
theorem find_closest_location_ignores_unresolved (dist : GPSCoordinates → GPSCoordinates → ℚ)
    (coords : GPSCoordinates) (locs : List Location) (maxD : ℚ) :
    find_closest_location dist coords locs maxD
        = find_closest_location dist coords (locs.filter (fun l => l.coordinates.isSome)) maxD
      ∧ find_closest_location dist coords [] maxD = none
      ∧ ((∀ l ∈ locs, l.coordinates = none) → find_closest_location dist coords locs maxD = none) := by
  refine ⟨?_, rfl, ?_⟩
  · simp only [find_closest_location]
    rw [findClosestLoop_filter dist coords locs none ⊤]
  · intro hall
    have hfilter : locs.filter (fun l => l.coordinates.isSome) = [] := by
      rw [List.filter_eq_nil_iff]
      intro l hl
      simp [hall l hl]
    simp only [find_closest_location]
    rw [← findClosestLoop_filter dist coords locs none ⊤, hfilter]
    rfl

/-- Witness for the hypothesis-bearing part of the C10 theorem, at a concrete
input where every location is unresolved. -/
theorem find_closest_location_ignores_unresolved_witness :
    find_closest_location (fun _ _ => 0) ⟨0, 0⟩ [⟨"a", "a", none⟩, ⟨"b", "b", none⟩] 1 = none :=
  (find_closest_location_ignores_unresolved (fun _ _ => 0) ⟨0, 0⟩
    [⟨"a", "a", none⟩, ⟨"b", "b", none⟩] 1).2.2 (by decide)

/-- Claim C6: `dms_to_decimal` computes `degrees + minutes/60 + seconds/3600`
for both plain and rational triples, negated exactly when the reference is
"S" or "W"; for non-negative triples the result is non-negative under "N"/"E"
and non-positive under "S"/"W"; and `(10,30,0)` with "N" yields `10.5`
(exactly `21/2` in `ℚ`). -/
theorem dms_to_decimal_spec :
    (∀ (d m s : ℚ) (ref : String),
      dms_to_decimal (.plain d m s) ref
        = .ok (if ref = "S" ∨ ref = "W" then -(d + m / 60 + s / 3600) else d + m / 60 + s / 3600))
    ∧ (∀ (dn dd mn md sn sd : ℤ) (ref : String), dd ≠ 0 → md ≠ 0 → sd ≠ 0 →
      dms_to_decimal (.rational dn dd mn md sn sd) ref
        = .ok (if ref = "S" ∨ ref = "W"
            then -((dn : ℚ) / (dd : ℚ) + ((mn : ℚ) / (md : ℚ)) / 60 + ((sn : ℚ) / (sd : ℚ)) / 3600)
            else (dn : ℚ) / (dd : ℚ) + ((mn : ℚ) / (md : ℚ)) / 60 + ((sn : ℚ) / (sd : ℚ)) / 3600))
    ∧ (∀ (d m s : ℚ) (ref : String) (q : ℚ), 0 ≤ d → 0 ≤ m → 0 ≤ s →
        dms_to_decimal (.plain d m s) ref = .ok q →
        ((ref = "N" ∨ ref = "E") → 0 ≤ q) ∧ ((ref = "S" ∨ ref = "W") → q ≤ 0))
    ∧ dms_to_decimal (.plain 10 30 0) "N" = .ok (21 / 2 : ℚ) := by
  have hplain : ∀ (d m s : ℚ) (ref : String),
      dms_to_decimal (.plain d m s) ref
        = .ok (if ref = "S" ∨ ref = "W" then -(d + m / 60 + s / 3600) else d + m / 60 + s / 3600) := by
    intro d m s ref
    simp only [dms_to_decimal]
  refine ⟨hplain, ?_, ?_, ?_⟩
  · intro dn dd mn md sn sd ref h1 h2 h3
    simp only [dms_to_decimal]
    rw [if_neg (by simp [h1, h2, h3])]
  · intro d m s ref q hd hm hs heq
    have hsum : 0 ≤ d + m / 60 + s / 3600 := by
      have h60 : (0 : ℚ) ≤ m / 60 := div_nonneg hm (by norm_num)
      have h3600 : (0 : ℚ) ≤ s / 3600 := div_nonneg hs (by norm_num)
      linarith
    rw [hplain] at heq
    constructor
    · intro href
      have hne : ¬ (ref = "S" ∨ ref = "W") := by
        rcases href with h | h <;> subst h <;> decide
      rw [if_neg hne] at heq
      injection heq with h
      rw [← h]
      exact hsum
    · intro href
      rw [if_pos href] at heq
      injection heq with h
      rw [← h]
      exact neg_nonpos.mpr hsum
  · rw [hplain, if_neg (by decide)]
    norm_num

/-- Witness for the hypothesis-bearing parts of the C6 theorem: the rational
form `(10/1, 30/1, 0/1)` with reference "W" evaluates to `-10.5`, and the
non-negative triple `(10, 30, 0)` with "W" gives a non-positive result. -/
theorem dms_to_decimal_spec_witness :
    dms_to_decimal (.rational 10 1 30 1 0 1) "W"
        = .ok (-((10 : ℚ) / 1 + ((30 : ℚ) / 1) / 60 + ((0 : ℚ) / 1) / 3600))
      ∧ (-(21 / 2) : ℚ) ≤ 0 := by
  constructor
  · rw [dms_to_decimal_spec.2.1 10 1 30 1 0 1 "W" (by norm_num) (by norm_num) (by norm_num)]
    norm_num
  · exact (dms_to_decimal_spec.2.2.1 10 30 0 "W" (-(21 / 2)) (by norm_num) (by norm_num)
      (by norm_num) (by rw [dms_to_decimal_spec.1]; norm_num)).2 (Or.inr rfl)

/-- Claim C8: `extract_gps_from_image` is total at its public interface — it
returns a coordinate pair or `None` and never propagates an exception: an
unreadable file, a missing geotag block, an empty GPS dictionary, a missing
reference or triple on either axis, and malformed DMS data (the decode error)
all yield `None`; every raised error from the inner body is caught; and a
`some` result arises only from a fully present, decodable geotag. -/
theorem extract_gps_from_image_total :
    extract_gps_from_image .unreadable = none
    ∧ extract_gps_from_image .noExif = none
    ∧ extract_gps_from_image (.exifData none) = none
    ∧ (∀ g : GpsInfo, g.gpsLatitude = none → extract_gps_from_image (.exifData (some g)) = none)
    ∧ (∀ g : GpsInfo, g.gpsLatitudeRef = none → extract_gps_from_image (.exifData (some g)) = none)
    ∧ (∀ g : GpsInfo, g.gpsLongitude = none → extract_gps_from_image (.exifData (some g)) = none)
    ∧ (∀ g : GpsInfo, g.gpsLongitudeRef = none → extract_gps_from_image (.exifData (some g)) = none)
    ∧ (∀ (g : GpsInfo) (latT : DMSTriple) (latRef e : String),
        g.gpsLatitude = some latT → g.gpsLatitudeRef = some latRef →
        dms_to_decimal latT latRef = .error e →
        extract_gps_from_image (.exifData (some g)) = none)
    ∧ (∀ (g : GpsInfo) (lonT : DMSTriple) (lonRef e : String),
        g.gpsLongitude = some lonT → g.gpsLongitudeRef = some lonRef →
        dms_to_decimal lonT lonRef = .error e →
        extract_gps_from_image (.exifData (some g)) = none)
    ∧ (∀ (img : ImageData) (e : String),
        extract_gps_inner img = .error e → extract_gps_from_image img = none)
    ∧ (∀ (img : ImageData) (c : GPSCoordinates),
        extract_gps_from_image img = some c →
        ∃ (g : GpsInfo) (latT lonT : DMSTriple) (latRef lonRef : String),
          img = .exifData (some g)
          ∧ g.gpsLatitude = some latT ∧ g.gpsLatitudeRef = some latRef
          ∧ g.gpsLongitude = some lonT ∧ g.gpsLongitudeRef = some lonRef
          ∧ dms_to_decimal latT latRef = .ok c.latitude
          ∧ dms_to_decimal lonT lonRef = .ok c.longitude) := by
  refine ⟨rfl, rfl, rfl, ?_, ?_, ?_, ?_, ?_, ?_, ?_, ?_⟩
  · rintro ⟨lat?, latR?, lon?, lonR?⟩ h
    simp only at h
    subst h
    rfl
  · rintro ⟨lat?, latR?, lon?, lonR?⟩ h
    simp only at h
    subst h
    cases lat? <;> rfl
  · rintro ⟨lat?, latR?, lon?, lonR?⟩ h
    simp only at h
    subst h
    cases lat? with
    | none => rfl
    | some latT =>
      cases latR? with
      | none => rfl
      | some latRef =>
        simp only [extract_gps_from_image, extract_gps_inner]
        cases dms_to_decimal latT latRef <;> rfl
  · rintro ⟨lat?, latR?, lon?, lonR?⟩ h
    simp only at h
    subst h
    cases lat? with
    | none => rfl
    | some latT =>
      cases latR? with
      | none => rfl
      | some latRef =>
        simp only [extract_gps_from_image, extract_gps_inner]
        cases dms_to_decimal latT latRef with
        | error e => rfl
        | ok lat => cases lon? <;> rfl
  · rintro ⟨lat?, latR?, lon?, lonR?⟩ latT latRef e h1 h2 hd
    simp only at h1 h2
    subst h1
    subst h2
    simp [extract_gps_from_image, extract_gps_inner, hd]
  · rintro ⟨lat?, latR?, lon?, lonR?⟩ lonT lonRef e h1 h2 hd
    simp only at h1 h2
    subst h1
    subst h2
    cases lat? with
    | none => rfl
    | some latT =>
      cases latR? with
      | none => rfl
      | some latRef =>
        simp only [extract_gps_from_image, extract_gps_inner]
        cases dms_to_decimal latT latRef with
        | error e' => rfl
        | ok lat => simp [hd]
  · intro img e h
    simp [extract_gps_from_image, h]
  · intro img c h
    rcases img with _ | _ | gps
    · exact absurd h (by simp [extract_gps_from_image, extract_gps_inner])
    · exact absurd h (by simp [extract_gps_from_image, extract_gps_inner])
    · rcases gps with _ | g
      · exact absurd h (by simp [extract_gps_from_image, extract_gps_inner])
      · obtain ⟨lat?, latR?, lon?, lonR?⟩ := g
        cases lat? with
        | none => exact absurd h (by simp [extract_gps_from_image, extract_gps_inner])
        | some latT =>
          cases latR? with
          | none => exact absurd h (by simp [extract_gps_from_image, extract_gps_inner])
          | some latRef =>
            cases hdlat : dms_to_decimal latT latRef with
            | error e =>
              exact absurd h (by simp [extract_gps_from_image, extract_gps_inner, hdlat])
            | ok lat =>
              cases lon? with
              | none =>
                exact absurd h (by simp [extract_gps_from_image, extract_gps_inner, hdlat])
              | some lonT =>
                cases lonR? with
                | none =>
                  exact absurd h (by simp [extract_gps_from_image, extract_gps_inner, hdlat])
                | some lonRef =>
                  cases hdlon : dms_to_decimal lonT lonRef with
                  | error e =>
                    exact absurd h (by simp [extract_gps_from_image, extract_gps_inner, hdlat, hdlon])
                  | ok lon =>
                    have hc : c = ⟨lat, lon⟩ := by
                      have := h.symm
                      simp only [extract_gps_from_image, extract_gps_inner, hdlat, hdlon] at this
                      exact Option.some_inj.mp this
                    subst hc
                    exact ⟨⟨some latT, some latRef, some lonT, some lonRef⟩, latT, lonT,
                      latRef, lonRef, rfl, rfl, rfl, rfl, rfl, hdlat, hdlon⟩

/-- Witness for the hypothesis-bearing parts of the C8 theorem: a geotag with
a zero denominator in the latitude triple (raising the decode error) yields
`None`. -/
theorem extract_gps_from_image_total_witness :
    extract_gps_from_image
        (.exifData (some ⟨some (.rational 1 0 1 1 1 1), some "N", none, none⟩)) = none :=
  extract_gps_from_image_total.2.2.2.2.2.2.2.1
    ⟨some (.rational 1 0 1 1 1 1), some "N", none, none⟩
    (.rational 1 0 1 1 1 1) "N" "Invalid DMS format" rfl rfl (by simp [dms_to_decimal])

/-- The supported image extensions, in the order of the Python set literal. -/
def IMAGE_EXTENSIONS : List String :=
  [".jpg", ".jpeg", ".png", ".tiff", ".tif", ".heic", ".heif"]

/-- Python's `str.upper()` for the ASCII extension strings. -/
def strUpper (s : String) : String := String.mk (s.data.map Char.toUpper)

/-- Python's `str.lower()` (used only to state case-insensitive matching). -/
def strLower (s : String) : String := String.mk (s.data.map Char.toLower)

/-- Whether `f` matches the glob pattern `*ext`, i.e. ends with `ext`. -/
def matchesGlob (f ext : String) : Bool := List.isSuffixOf ext.data f.data

/-- Embedding of `find_images`: a directory tree is modelled by the list of
its file paths; for each extension the code collects the files matching
`*{ext}` and `*{ext.upper()}` (`rglob` is case-sensitive), then de-duplicates
with `list(set(images))`. -/
def find_images (files : List String) : List String :=
  (IMAGE_EXTENSIONS.foldl (fun acc ext =>
      acc ++ files.filter (fun f => matchesGlob f ext)
          ++ files.filter (fun f => matchesGlob f (strUpper ext))) []).dedup

/-- Claim C5 counterexample: the file `a.Jpg` has extension `jpg` up to case
(its lowercase form ends with `.jpg`, a listed extension), yet `find_images`
does not include it — discovery only matches the all-lowercase and
all-uppercase variants, not arbitrary mixtures. -/
theorem find_images_not_case_insensitive :
    ".jpg" ∈ IMAGE_EXTENSIONS
    ∧ matchesGlob (strLower "a.Jpg") ".jpg" = true
    ∧ find_images ["a.Jpg"] = [] := by decide

theorem mem_foldl_append2 {α β : Type} (g1 g2 : β → List α) :
    ∀ (exts : List β) (init : List α) (x : α),
      x ∈ exts.foldl (fun acc e => acc ++ g1 e ++ g2 e) init
        ↔ x ∈ init ∨ ∃ e ∈ exts, x ∈ g1 e ∨ x ∈ g2 e
  | [], init, x => by simp
  | e :: exts, init, x => by
    simp only [List.foldl_cons]
    rw [mem_foldl_append2 g1 g2 exts (init ++ g1 e ++ g2 e) x]
    simp only [List.mem_append, List.mem_cons]
    constructor
    · rintro (((h | h) | h) | ⟨e', he', h⟩)
      · exact Or.inl h
      · exact Or.inr ⟨e, Or.inl rfl, Or.inl h⟩
      · exact Or.inr ⟨e, Or.inl rfl, Or.inr h⟩
      · exact Or.inr ⟨e', Or.inr he', h⟩
    · rintro (h | ⟨e', rfl | he', h⟩)
      · exact Or.inl (Or.inl (Or.inl h))
      · rcases h with h | h
        · exact Or.inl (Or.inl (Or.inr h))
        · exact Or.inl (Or.inr h)
      · exact Or.inr ⟨e', he', h⟩

/-- Claim C5 as amended: `find_images` includes a file if and only if the file
name ends with the all-lowercase or the all-uppercase form of one of the seven
supported extensions (an arbitrary case mixture is not matched), and the
returned list contains no path twice. -/
theorem find_images_spec (files : List String) (f : String) :
    (f ∈ find_images files ↔ f ∈ files ∧ ∃ ext ∈ IMAGE_EXTENSIONS,
        matchesGlob f ext = true ∨ matchesGlob f (strUpper ext) = true)
    ∧ (find_images files).Nodup := by
  constructor
  · unfold find_images
    rw [List.mem_dedup,
      mem_foldl_append2 (fun ext => files.filter (fun f => matchesGlob f ext))
        (fun ext => files.filter (fun f => matchesGlob f (strUpper ext))) IMAGE_EXTENSIONS [] f]
    simp only [List.not_mem_nil, false_or, List.mem_filter]
    constructor
    · rintro ⟨ext, hext, ⟨hf, hm⟩ | ⟨hf, hm⟩⟩
      · exact ⟨hf, ext, hext, Or.inl hm⟩
      · exact ⟨hf, ext, hext, Or.inr hm⟩
    · rintro ⟨hf, ext, hext, hm | hm⟩
      · exact ⟨ext, hext, Or.inl ⟨hf, hm⟩⟩
      · exact ⟨ext, hext, Or.inr ⟨hf, hm⟩⟩
  · exact List.nodup_dedup _

/-- The characters `sanitize_folder_name` replaces: `< > : " / \ | ? *`. -/
def invalid_chars : List Char := ['<', '>', ':', '\"', '/', '\\', '|', '?', '*']

/-- Python's `name.replace(old, new)` for single characters. -/
def replaceChar (s : List Char) (old new : Char) : List Char :=
  s.map (fun c => if c = old then new else c)

/-- Python's `str.strip()`: remove leading and trailing whitespace. -/
def pyStrip (s : List Char) : List Char :=
  (s.dropWhile Char.isWhitespace).rdropWhile Char.isWhitespace

/-- The character-level pipeline of `sanitize_folder_name`: replace each
invalid character by an underscore, truncate to 100 characters, strip. -/
def sanitizeChars (name : List Char) : List Char :=
  pyStrip ((invalid_chars.foldl (fun s c => replaceChar s c '_') name).take 100)

/-- Embedding of `sanitize_folder_name`. -/
def sanitize_folder_name (name : String) : String := String.mk (sanitizeChars name.data)

/-- Embedding of `pathlib`'s `/` operator on a directory (a list of path
segments) and a name: joining with the empty string leaves the path
unchanged, as `Path(p) / ""` does. -/
def pathJoin (p : List String) (s : String) : List String :=
  if s = "" then p else p ++ [s]

theorem mem_foldl_replaceChar :
    ∀ (olds : List Char) (s : List Char) (x : Char),
      x ∈ olds.foldl (fun s c => replaceChar s c '_') s → x = '_' ∨ (x ∈ s ∧ x ∉ olds)
  | [], s, x, h => Or.inr ⟨h, List.not_mem_nil x⟩
  | old :: olds, s, x, h => by
    rw [List.foldl_cons] at h
    rcases mem_foldl_replaceChar olds (replaceChar s old '_') x h with h1 | ⟨h1, h2⟩
    · exact Or.inl h1
    · rcases List.mem_map.mp h1 with ⟨c, hc, hcx⟩
      by_cases hco : c = old
      · rw [if_pos hco] at hcx
        exact Or.inl hcx.symm
      · rw [if_neg hco] at hcx
        subst hcx
        exact Or.inr ⟨hc, by simp [hco, h2]⟩

theorem foldl_replaceChar_id :
    ∀ (olds : List Char) (s : List Char), (∀ c ∈ s, c ∉ olds) →
      olds.foldl (fun s c => replaceChar s c '_') s = s
  | [], s, _ => rfl
  | old :: olds, s, h => by
    rw [List.foldl_cons]
    have hs : replaceChar s old '_' = s := by
      unfold replaceChar
      rw [show s.map (fun c => if c = old then '_' else c) = s.map id from
        List.map_congr_left (fun c hc => if_neg (fun he =>
          h c hc (by rw [he]; exact List.mem_cons_self old olds))),
        List.map_id]
    rw [hs]
    exact foldl_replaceChar_id olds s (fun c hc hm => h c hc (List.mem_cons_of_mem old hm))

theorem head?_dropWhile_not {p : Char → Bool} :
    ∀ (l : List Char) (c : Char), (l.dropWhile p).head? = some c → p c = false
  | [], c, h => by simp [List.dropWhile] at h
  | a :: l, c, h => by
    rw [List.dropWhile_cons] at h
    by_cases hp : p a
    · rw [if_pos hp] at h
      exact head?_dropWhile_not l c h
    · rw [if_neg hp] at h
      simp only [List.head?_cons, Option.some_inj] at h
      subst h
      exact Bool.not_eq_true _ ▸ (by simpa using hp)

theorem head?_append_left {α : Type} {l u : List α} {c : α}
    (h : l.head? = some c) : (l ++ u).head? = some c := by
  cases l with
  | nil => simp at h
  | cons a l => simpa using h

/-- Claim C9: `sanitize_folder_name` output contains none of the characters
`< > : " / \ | ? *`, is at most 100 characters long, and has no leading or
trailing whitespace; a whitespace-only input sanitizes to the empty string,
in which case joining the output root with the location's folder name leaves
the output root itself (files land directly in the output root). -/
theorem sanitize_folder_name_spec (name : String) :
    (∀ c ∈ (sanitize_folder_name name).data, c ∉ invalid_chars)
    ∧ (sanitize_folder_name name).data.length ≤ 100
    ∧ (∀ c, (sanitize_folder_name name).data.head? = some c → c.isWhitespace = false)
    ∧ (∀ c, (sanitize_folder_name name).data.getLast? = some c → c.isWhitespace = false)
    ∧ ((∀ c ∈ name.data, c.isWhitespace = true) →
        sanitize_folder_name name = ""
        ∧ ∀ out : List String, pathJoin out (sanitize_folder_name name) = out) := by
  have hdata : (sanitize_folder_name name).data = sanitizeChars name.data := rfl
  have hinv_not_ws : ∀ c ∈ invalid_chars, c.isWhitespace = false := by decide
  have hus : ('_' : Char) ∉ invalid_chars := by decide
  refine ⟨?_, ?_, ?_, ?_, ?_⟩
  · intro c hc
    rw [hdata] at hc
    unfold sanitizeChars pyStrip at hc
    have hc2 : c ∈ (invalid_chars.foldl (fun s c => replaceChar s c '_') name.data).take 100 :=
      (List.dropWhile_suffix Char.isWhitespace).subset
        ((List.rdropWhile_prefix Char.isWhitespace _).subset hc)
    have hc3 : c ∈ invalid_chars.foldl (fun s c => replaceChar s c '_') name.data :=
      List.take_subset 100 _ hc2
    rcases mem_foldl_replaceChar invalid_chars name.data c hc3 with h | ⟨_, h⟩
    · rw [h]
      exact hus
    · exact h
  · rw [hdata]
    unfold sanitizeChars pyStrip
    calc ((((invalid_chars.foldl (fun s c => replaceChar s c '_') name.data).take 100).dropWhile
            Char.isWhitespace).rdropWhile Char.isWhitespace).length
        ≤ (((invalid_chars.foldl (fun s c => replaceChar s c '_') name.data).take 100).dropWhile
            Char.isWhitespace).length :=
          (List.rdropWhile_prefix Char.isWhitespace _).length_le
      _ ≤ ((invalid_chars.foldl (fun s c => replaceChar s c '_') name.data).take 100).length :=
          (List.dropWhile_suffix Char.isWhitespace).length_le
      _ ≤ 100 := List.length_take_le 100 _
  · intro c hc
    rw [hdata] at hc
    unfold sanitizeChars pyStrip at hc
    obtain ⟨u, hu⟩ := List.rdropWhile_prefix Char.isWhitespace
      (((invalid_chars.foldl (fun s c => replaceChar s c '_') name.data).take 100).dropWhile
        Char.isWhitespace)
    exact head?_dropWhile_not _ c (hu ▸ head?_append_left hc)
  · intro c hc
    rw [hdata] at hc
    unfold sanitizeChars pyStrip at hc
    obtain ⟨hne, hgl⟩ := List.mem_getLast?_eq_getLast hc
    have := List.rdropWhile_last_not Char.isWhitespace
      (((invalid_chars.foldl (fun s c => replaceChar s c '_') name.data).take 100).dropWhile
        Char.isWhitespace) hne
    rw [← hgl] at this
    simpa using this
  · intro hws
    have hid : invalid_chars.foldl (fun s c => replaceChar s c '_') name.data = name.data :=
      foldl_replaceChar_id invalid_chars name.data
        (fun c hc hmem => by
          have h1 := hinv_not_ws c hmem
          have h2 := hws c hc
          rw [h1] at h2
          exact Bool.false_ne_true h2)
    have hnil : sanitizeChars name.data = [] := by
      unfold sanitizeChars pyStrip
      rw [hid, List.dropWhile_eq_nil_iff.mpr (fun x hx => hws x (List.take_subset 100 _ hx)),
        List.rdropWhile_nil]
    have hempty : sanitize_folder_name name = "" := by
      unfold sanitize_folder_name
      rw [hnil]
    refine ⟨hempty, fun out => ?_⟩
    rw [hempty]
    rfl

/-- Witness for the hypothesis-bearing parts of the C9 theorem: a
whitespace-only name sanitizes to the empty string and a matched location
with that name maps to the output root itself. -/
theorem sanitize_folder_name_spec_witness :
    sanitize_folder_name "  " = "" ∧ pathJoin ["out"] (sanitize_folder_name "  ") = ["out"] := by
  have h := (sanitize_folder_name_spec "  ").2.2.2.2 (by decide)
  exact ⟨h.1, h.2 ["out"]⟩

/-- Little-endian decimal digits of a natural number, fuel-based so that it
reduces by kernel computation. -/
def decDigitsAux : Nat → Nat → List Nat
  | 0, _ => []
  | fuel + 1, n => if n < 10 then [n] else n % 10 :: decDigitsAux fuel (n / 10)

/-- Little-endian decimal digits of `n`. -/
def decDigits (n : Nat) : List Nat := decDigitsAux (n + 1) n

/-- Value of a little-endian digit list (used only to prove that decimal
rendering is injective). -/
def valOfDigits : List Nat → Nat
  | [] => 0
  | d :: ds => d + 10 * valOfDigits ds

theorem valOfDigits_decDigitsAux :
    ∀ (fuel n : Nat), n < fuel → valOfDigits (decDigitsAux fuel n) = n
  | 0, n, h => absurd h (Nat.not_lt_zero n)
  | fuel + 1, n, h => by
    unfold decDigitsAux
    by_cases h10 : n < 10
    · rw [if_pos h10]
      simp [valOfDigits]
    · rw [if_neg h10]
      have hdiv : n / 10 < fuel := by
        have h1 : n / 10 < n := Nat.div_lt_self (by omega) (by norm_num)
        omega
      rw [valOfDigits, valOfDigits_decDigitsAux fuel (n / 10) hdiv]
      omega

theorem decDigits_injective : Function.Injective decDigits := by
  intro a b h
  have ha := valOfDigits_decDigitsAux (a + 1) a (Nat.lt_succ_self a)
  have hb := valOfDigits_decDigitsAux (b + 1) b (Nat.lt_succ_self b)
  rw [← ha, ← hb]
  unfold decDigits at h
  rw [h]

theorem decDigitsAux_lt_ten :
    ∀ (fuel n : Nat) (d : Nat), d ∈ decDigitsAux fuel n → d < 10
  | 0, n, d, h => absurd h (List.not_mem_nil d)
  | fuel + 1, n, d, h => by
    unfold decDigitsAux at h
    by_cases h10 : n < 10
    · rw [if_pos h10] at h
      rcases List.mem_singleton.mp h with rfl
      exact h10
    · rw [if_neg h10] at h
      rcases List.mem_cons.mp h with rfl | h
      · exact Nat.mod_lt n (by norm_num)
      · exact decDigitsAux_lt_ten fuel (n / 10) d h

theorem decDigitsAux_ne_nil (fuel n : Nat) (h : 0 < fuel) : decDigitsAux fuel n ≠ [] := by
  cases fuel with
  | zero => omega
  | succ fuel =>
    unfold decDigitsAux
    by_cases h10 : n < 10
    · rw [if_pos h10]
      simp
    · rw [if_neg h10]
      simp

/-- The decimal character data produced for a counter value, i.e. the `.data`
of Python's `f"{n}"`. -/
def natStrData (n : Nat) : List Char := (decDigits n).reverse.map Nat.digitChar

/-- Decimal rendering of a natural number, as the Python f-string produces. -/
def natStr (n : Nat) : String := String.mk (natStrData n)

theorem digitChar_inj_lt_ten :
    ∀ d1 : Nat, d1 < 10 → ∀ d2 : Nat, d2 < 10 → Nat.digitChar d1 = Nat.digitChar d2 → d1 = d2 := by
  decide

theorem map_digitChar_inj :
    ∀ (l1 l2 : List Nat), (∀ d ∈ l1, d < 10) → (∀ d ∈ l2, d < 10) →
      l1.map Nat.digitChar = l2.map Nat.digitChar → l1 = l2
  | [], [], _, _, _ => rfl
  | [], d :: l2, _, _, h => by simp at h
  | d :: l1, [], _, _, h => by simp at h
  | d1 :: l1, d2 :: l2, h1, h2, h => by
    simp only [List.map_cons, List.cons.injEq] at h
    have hd := digitChar_inj_lt_ten d1 (h1 d1 (List.mem_cons_self d1 l1))
      d2 (h2 d2 (List.mem_cons_self d2 l2)) h.1
    have ht := map_digitChar_inj l1 l2
      (fun d hd => h1 d (List.mem_cons_of_mem d1 hd))
      (fun d hd => h2 d (List.mem_cons_of_mem d2 hd)) h.2
    rw [hd, ht]

theorem natStrData_injective : Function.Injective natStrData := by
  intro a b h
  unfold natStrData at h
  have := map_digitChar_inj (decDigits a).reverse (decDigits b).reverse
    (fun d hd => decDigitsAux_lt_ten (a + 1) a d (List.mem_reverse.mp hd))
    (fun d hd => decDigitsAux_lt_ten (b + 1) b d (List.mem_reverse.mp hd)) h
  exact decDigits_injective (List.reverse_injective this)

theorem natStrData_ne_nil (n : Nat) : natStrData n ≠ [] := by
  unfold natStrData
  intro h
  rcases List.map_eq_nil_iff.mp h with h2
  exact decDigitsAux_ne_nil (n + 1) n (Nat.succ_pos n) (List.reverse_eq_nil_iff.mp h2)

/-- The filename tried by the conflict loop at counter value `k ≥ 1`, and the
original name at `k = 0`: `f"{stem}_{counter}{suffix}"`. -/
def candFileName (stem sfx : String) : Nat → String
  | 0 => stem ++ sfx
  | k + 1 => stem ++ "_" ++ natStr (k + 1) ++ sfx

/-- The destination path tried by the conflict loop at counter value `k`. -/
def candPath (folder : List String) (stem sfx : String) (k : Nat) : List String :=
  pathJoin folder (candFileName stem sfx k)

theorem candFileName_data (stem sfx : String) (k : Nat) :
    (candFileName stem sfx (k + 1)).data
      = stem.data ++ ('_' :: (natStrData (k + 1) ++ sfx.data)) := by
  show (stem ++ "_" ++ natStr (k + 1) ++ sfx).data = _
  rw [String.data_append, String.data_append, String.data_append]
  simp [natStr, natStrData]

theorem candFileName_succ_ne_nil (stem sfx : String) (k : Nat) :
    candFileName stem sfx (k + 1) ≠ "" := by
  intro h
  have hd : (candFileName stem sfx (k + 1)).data = [] := by rw [h]
  rw [candFileName_data] at hd
  have hlen := congrArg List.length hd
  simp only [List.length_append, List.length_cons, List.length_nil] at hlen
  omega

theorem candFileName_inj (stem sfx : String) :
    ∀ k k' : Nat, candFileName stem sfx k = candFileName stem sfx k' → k = k' := by
  have hlen0 : ∀ k', candFileName stem sfx 0 ≠ candFileName stem sfx (k' + 1) := by
    intro k' h
    have hd := congrArg String.data h
    rw [candFileName_data] at hd
    rw [show (candFileName stem sfx 0).data = stem.data ++ sfx.data by
      rw [show candFileName stem sfx 0 = stem ++ sfx from rfl, String.data_append]] at hd
    have hlen := congrArg List.length hd
    simp only [List.length_append, List.length_cons] at hlen
    omega
  intro k k' h
  cases k with
  | zero =>
    cases k' with
    | zero => rfl
    | succ k' => exact absurd h (hlen0 k')
  | succ k =>
    cases k' with
    | zero => exact absurd h.symm (hlen0 k)
    | succ k' =>
      have hd := congrArg String.data h
      rw [candFileName_data, candFileName_data] at hd
      have h1 := List.append_cancel_left hd
      have h2 := (List.cons.inj h1).2
      have h3 := List.append_cancel_right h2
      have := natStrData_injective h3
      omega

theorem candPath_inj (folder : List String) (stem sfx : String) :
    ∀ k k' : Nat, candPath folder stem sfx k = candPath folder stem sfx k' → k = k' := by
  have hjoin : ∀ (s s' : String), s ≠ "" → s' ≠ "" →
      pathJoin folder s = pathJoin folder s' → s = s' := by
    intro s s' hs hs' h
    unfold pathJoin at h
    rw [if_neg hs, if_neg hs'] at h
    exact List.cons.inj (List.append_cancel_left h) |>.1
  have hjoin0 : ∀ (s' : String), s' ≠ "" → pathJoin folder "" ≠ pathJoin folder s' := by
    intro s' hs' h
    unfold pathJoin at h
    rw [if_pos rfl, if_neg hs'] at h
    have := congrArg List.length h
    simp at this
  intro k k' h
  unfold candPath at h
  match k, k' with
  | 0, 0 => rfl
  | 0, k' + 1 =>
    by_cases h0 : candFileName stem sfx 0 = ""
    · rw [h0] at h
      exact absurd h (hjoin0 _ (candFileName_succ_ne_nil stem sfx k'))
    · exact candFileName_inj stem sfx 0 (k' + 1)
        (hjoin _ _ h0 (candFileName_succ_ne_nil stem sfx k') h)
  | k + 1, 0 =>
    by_cases h0 : candFileName stem sfx 0 = ""
    · rw [h0] at h
      exact absurd h.symm (hjoin0 _ (candFileName_succ_ne_nil stem sfx k))
    · exact candFileName_inj stem sfx (k + 1) 0
        (hjoin _ _ (candFileName_succ_ne_nil stem sfx k) h0 h)
  | k + 1, k' + 1 =>
    exact candFileName_inj stem sfx (k + 1) (k' + 1)
      (hjoin _ _ (candFileName_succ_ne_nil stem sfx k) (candFileName_succ_ne_nil stem sfx k') h)

/-- The filename-conflict `while` loop of `sort_photos`: as long as the
current destination exists, build `f"{stem}_{counter}{suffix}"` and increment
the counter.  The Python loop is unbounded; here it carries fuel, and the
caller supplies `fs.length + 1`, which is enough to reach a free name (proved
below). -/
def collisionLoop (fs : List (List String)) (folder : List String) (stem sfx : String) :
    List String → Nat → Nat → List String
  | dest, _, 0 => dest
  | dest, counter, fuel + 1 =>
    if dest ∈ fs then
      collisionLoop fs folder stem sfx
        (pathJoin folder (stem ++ "_" ++ natStr counter ++ sfx)) (counter + 1) fuel
    else dest

theorem collisionLoop_mem (fs : List (List String)) (folder : List String) (stem sfx : String) :
    ∀ (fuel : Nat) (dest : List String) (counter : Nat),
      collisionLoop fs folder stem sfx dest counter fuel ∈ fs →
      dest ∈ fs ∧ ∀ j < fuel, pathJoin folder (stem ++ "_" ++ natStr (counter + j) ++ sfx) ∈ fs
  | 0, dest, counter, h => ⟨h, fun j hj => absurd hj (Nat.not_lt_zero j)⟩
  | fuel + 1, dest, counter, h => by
    unfold collisionLoop at h
    by_cases hd : dest ∈ fs
    · rw [if_pos hd] at h
      obtain ⟨h1, h2⟩ := collisionLoop_mem fs folder stem sfx fuel _ (counter + 1) h
      refine ⟨hd, fun j hj => ?_⟩
      cases j with
      | zero => simpa using h1
      | succ j' =>
        have := h2 j' (by omega)
        rw [show counter + 1 + j' = counter + (j' + 1) by omega] at this
        exact this
    · rw [if_neg hd] at h
      exact absurd h hd

/-- With fuel `fs.length + 1` the conflict loop, started at the original name
with counter 1, always returns a destination that does not yet exist. -/
theorem collisionLoop_not_mem (fs : List (List String)) (folder : List String)
    (stem sfx : String) :
    collisionLoop fs folder stem sfx (pathJoin folder (stem ++ sfx)) 1 (fs.length + 1) ∉ fs := by
  intro h
  obtain ⟨h0, hrest⟩ := collisionLoop_mem fs folder stem sfx (fs.length + 1) _ 1 h
  have hall : ∀ k < fs.length + 2, candPath folder stem sfx k ∈ fs := by
    intro k hk
    cases k with
    | zero => exact h0
    | succ k' =>
      have := hrest k' (by omega)
      rw [show 1 + k' = k' + 1 by omega] at this
      exact this
  have hnodup : ((List.range (fs.length + 2)).map (candPath folder stem sfx)).Nodup :=
    List.Nodup.map (fun a b hab => candPath_inj folder stem sfx a b hab) (List.nodup_range _)
  have hsub : ((List.range (fs.length + 2)).map (candPath folder stem sfx)).toFinset ⊆
      fs.toFinset := by
    intro x hx
    rw [List.mem_toFinset] at hx
    obtain ⟨k, hk, rfl⟩ := List.mem_map.mp hx
    rw [List.mem_toFinset]
    exact hall k (List.mem_range.mp hk)
  have hcard1 : ((List.range (fs.length + 2)).map (candPath folder stem sfx)).toFinset.card
      = fs.length + 2 := by
    rw [List.toFinset_card_of_nodup hnodup, List.length_map, List.length_range]
  have hcard2 := Finset.card_le_card hsub
  have hcard3 := fs.toFinset_card_le
  omega

/-- A discovered image: its source path, the stem/suffix split of its file
name (`image_path.stem`, `image_path.suffix`, so `image_path.name` is
`stem ++ suffix`), and its observable content. -/
structure Image where
  src : List String
  stem : String
  suffix : String
  data : ImageData
deriving DecidableEq, Repr

/-- `image_path.name`. -/
def Image.name (img : Image) : String := img.stem ++ img.suffix

/-- The statistics dictionary built by `sort_photos`; the `locations` dict
becomes an insertion-ordered association list. -/
structure Stats where
  total_images : Nat
  sorted_images : Nat
  no_gps_images : Nat
  no_match_images : Nat
  locations : List (String × Nat)
deriving DecidableEq, Repr

/-- `sortedImages + noGpsImages + noMatchImages`. -/
def Stats.classified (st : Stats) : Nat :=
  st.sorted_images + st.no_gps_images + st.no_match_images

/-- `stats['locations'].setdefault(name, 0); stats['locations'][name] += 1`
on an insertion-ordered association list. -/
def bumpLoc : List (String × Nat) → String → List (String × Nat)
  | [], n => [(n, 1)]
  | (k, v) :: rest, n => if k = n then (k, v + 1) :: rest else (k, v) :: bumpLoc rest n

/-- The filesystem effects `sort_photos` performs, in order.  `scan` marks
the `find_images` call (image discovery), `mkdirOut` the
`output_folder.mkdir(parents=True, exist_ok=True)` call, `mkdir` a
`.mkdir(exist_ok=True)` on a destination subfolder, and `copy`/`move` the
`shutil.copy2`/`shutil.move` calls. -/
inductive FsAction where
  | scan
  | mkdirOut (p : List String)
  | mkdir (p : List String)
  | copy (src dest : List String)
  | move (src dest : List String)
deriving DecidableEq, Repr

/-- Running state of one `sort_photos` call: statistics, the set of existing
files (as a duplicate-free list of paths), and the trace of filesystem
actions performed so far. -/
structure RunState where
  stats : Stats
  fs : List (List String)
  acts : List FsAction
deriving DecidableEq, Repr

/-- Effect of `shutil.copy2` / `shutil.move` on the file set, plus the traced
action.  An existing destination is silently overwritten (the path set does
not grow). -/
def place (copy_mode : Bool) (src dest : List String) (fs : List (List String)) :
    List (List String) × FsAction :=
  if copy_mode then (fs.insert dest, .copy src dest)
  else ((fs.erase src).insert dest, .move src dest)

/-- The body of the per-image loop of `sort_photos`: classify one image and
place it.  Mirrors lines 481–539 of the source: no GPS data goes to
`_no_gps_data` under the image's original name; no location match goes to
`_unknown_location` under the original name; a matched image goes to the
location's folder with the filename-conflict loop applied. -/
def classifyImage (valid : List Location) (dist : GPSCoordinates → GPSCoordinates → ℚ)
    (maxD : ℚ) (output_folder : List String) (copy_mode : Bool)
    (img : Image) (st : RunState) : RunState :=
  match extract_gps_from_image img.data with
  | none =>
    let folder := pathJoin output_folder "_no_gps_data"
    let dest := pathJoin folder img.name
    let pl := place copy_mode img.src dest st.fs
    { stats := { st.stats with no_gps_images := st.stats.no_gps_images + 1 },
      fs := pl.1,
      acts := st.acts ++ [.mkdir folder, pl.2] }
  | some coords =>
    match find_closest_location dist coords valid maxD with
    | none =>
      let folder := pathJoin output_folder "_unknown_location"
      let dest := pathJoin folder img.name
      let pl := place copy_mode img.src dest st.fs
      { stats := { st.stats with no_match_images := st.stats.no_match_images + 1 },
        fs := pl.1,
        acts := st.acts ++ [.mkdir folder, pl.2] }
    | some closest =>
      let folder := pathJoin output_folder closest.name
      let dest := collisionLoop st.fs folder img.stem img.suffix
        (pathJoin folder img.name) 1 (st.fs.length + 1)
      let pl := place copy_mode img.src dest st.fs
      { stats := { st.stats with
          sorted_images := st.stats.sorted_images + 1,
          locations := bumpLoc st.stats.locations closest.name },
        fs := pl.1,
        acts := st.acts ++ [.mkdir folder, pl.2] }

/-- The per-image loop: before each image the cancellation predicate is
polled (poll index `i`); on cancellation the current state is returned
unchanged. -/
def sortLoop (valid : List Location) (dist : GPSCoordinates → GPSCoordinates → ℚ)
    (maxD : ℚ) (output_folder : List String) (copy_mode : Bool) (cancelled : Nat → Bool) :
    List Image → Nat → RunState → RunState
  | [], _, st => st
  | img :: rest, i, st =>
    if cancelled i then st
    else sortLoop valid dist maxD output_folder copy_mode cancelled rest (i + 1)
      (classifyImage valid dist maxD output_folder copy_mode img st)

/-- The geocoding loop: before each address the cancellation predicate is
polled; on cancellation `sort_photos` returns the all-zero statistics, which
is signalled here by `none`. -/
def geocodeLoop (geocode : String → Option GPSCoordinates) (cancelled : Nat → Bool) :
    List String → Nat → List Location → Option (List Location)
  | [], _, acc => some acc
  | addr :: rest, i, acc =>
    if cancelled i then none
    else geocodeLoop geocode cancelled rest (i + 1)
      (acc ++ [{ name := sanitize_folder_name addr, address := addr,
                 coordinates := geocode addr }])

/-- Everything a `sort_photos` run consumes: the run parameters together with
its external collaborators — the geocoder, the geodesic distance, the
cancellation flag (indexed by poll number), the discovered image list
(`find_images` output), and the files already present. -/
structure SortInput where
  addresses : List String
  geocode : String → Option GPSCoordinates
  images : List Image
  dist : GPSCoordinates → GPSCoordinates → ℚ
  max_distance_km : ℚ
  copy_mode : Bool
  cancelled : Nat → Bool
  output_folder : List String
  initFs : List (List String)

/-- Embedding of `sort_photos`: geocode all addresses (polling cancellation
before each), filter the valid locations, short-circuit when none remain,
scan for images, short-circuit when none found, create the output folder and
process each image (polling cancellation before each).  Returns the
statistics and the trace of filesystem actions. -/
def sort_photos (inp : SortInput) : Stats × List FsAction :=
  match geocodeLoop inp.geocode inp.cancelled inp.addresses 0 [] with
  | none => (⟨0, 0, 0, 0, []⟩, [])
  | some locations =>
    let valid := locations.filter (fun l => l.coordinates.isSome)
    if valid.isEmpty then (⟨0, 0, 0, 0, []⟩, [])
    else
      let images := inp.images
      let stats1 : Stats := ⟨images.length, 0, 0, 0, []⟩
      if images.isEmpty then (stats1, [FsAction.scan])
      else
        let st0 : RunState := ⟨stats1, inp.initFs, [FsAction.scan, FsAction.mkdirOut inp.output_folder]⟩
        let stF := sortLoop valid inp.dist inp.max_distance_km inp.output_folder inp.copy_mode
          inp.cancelled images inp.addresses.length st0
        (stF.stats, stF.acts)

/-- The `Location` list built by the geocoding loop when it is not
cancelled. -/
def mkLocations (geocode : String → Option GPSCoordinates) (addrs : List String) :
    List Location :=
  addrs.map (fun a => { name := sanitize_folder_name a, address := a, coordinates := geocode a })

/-- How many images the per-image loop classifies before the cancellation
point (all of them when cancellation never fires). -/
def processedCount (cancelled : Nat → Bool) : List Image → Nat → Nat
  | [], _ => 0
  | _ :: rest, i => if cancelled i then 0 else processedCount cancelled rest (i + 1) + 1

/-- The number of images a whole run classifies. -/
def imagesProcessed (inp : SortInput) : Nat :=
  match geocodeLoop inp.geocode inp.cancelled inp.addresses 0 [] with
  | none => 0
  | some locations =>
    if (locations.filter (fun l => l.coordinates.isSome)).isEmpty then 0
    else if inp.images.isEmpty then 0
    else processedCount inp.cancelled inp.images inp.addresses.length

theorem geocodeLoop_complete (geocode : String → Option GPSCoordinates) (cancelled : Nat → Bool) :
    ∀ (addrs : List String) (i : Nat) (acc : List Location),
      (∀ j, j < addrs.length → cancelled (i + j) = false) →
      geocodeLoop geocode cancelled addrs i acc = some (acc ++ mkLocations geocode addrs)
  | [], i, acc, _ => by simp [geocodeLoop, mkLocations]
  | addr :: rest, i, acc, h => by
    have h0 : cancelled i = false := by
      have := h 0 (by simp)
      simpa using this
    rw [geocodeLoop, if_neg (by simp [h0])]
    have hrec := geocodeLoop_complete geocode cancelled rest (i + 1)
      (acc ++ [{ name := sanitize_folder_name addr, address := addr,
                 coordinates := geocode addr }])
      (fun j hj => by
        have := h (j + 1) (by simpa using Nat.succ_lt_succ hj)
        rw [show i + (j + 1) = i + 1 + j by omega] at this
        exact this)
    rw [hrec]
    simp [mkLocations]

theorem classifyImage_counts (valid : List Location)
    (dist : GPSCoordinates → GPSCoordinates → ℚ) (maxD : ℚ) (out : List String) (cm : Bool)
    (img : Image) (st : RunState) :
    (classifyImage valid dist maxD out cm img st).stats.total_images = st.stats.total_images
    ∧ (classifyImage valid dist maxD out cm img st).stats.classified
        = st.stats.classified + 1 := by
  unfold classifyImage
  cases hx : extract_gps_from_image img.data with
  | none =>
    refine ⟨?_, ?_⟩ <;> simp [Stats.classified] <;> omega
  | some coords =>
    cases hf : find_closest_location dist coords valid maxD with
    | none => refine ⟨?_, ?_⟩ <;> simp [hf, Stats.classified] <;> omega
    | some closest => refine ⟨?_, ?_⟩ <;> simp [hf, Stats.classified] <;> omega

theorem sortLoop_counts (valid : List Location) (dist : GPSCoordinates → GPSCoordinates → ℚ)
    (maxD : ℚ) (out : List String) (cm : Bool) (cancelled : Nat → Bool) :
    ∀ (imgs : List Image) (i : Nat) (st : RunState),
      (sortLoop valid dist maxD out cm cancelled imgs i st).stats.total_images
          = st.stats.total_images
      ∧ (sortLoop valid dist maxD out cm cancelled imgs i st).stats.classified
          = st.stats.classified + processedCount cancelled imgs i
  | [], i, st => by simp [sortLoop, processedCount]
  | img :: rest, i, st => by
    rw [sortLoop, processedCount]
    by_cases hc : cancelled i = true
    · rw [if_pos hc, if_pos hc]
      simp
    · rw [if_neg hc, if_neg hc]
      obtain ⟨h1, h2⟩ := sortLoop_counts valid dist maxD out cm cancelled rest (i + 1)
        (classifyImage valid dist maxD out cm img st)
      obtain ⟨g1, g2⟩ := classifyImage_counts valid dist maxD out cm img st
      refine ⟨by rw [h1, g1], ?_⟩
      rw [h2, g2]
      omega

theorem processedCount_all (cancelled : Nat → Bool) (h : ∀ i, cancelled i = false) :
    ∀ (imgs : List Image) (i : Nat), processedCount cancelled imgs i = imgs.length
  | [], _ => rfl
  | _ :: rest, i => by
    rw [processedCount, if_neg (by simp [h i]), processedCount_all cancelled h rest (i + 1)]
    rfl

/-- Claim C2: each classified image bumps exactly one of the three outcome
counters; at the end of any run the three counters sum to the number of
images processed before the cancellation point, and for a run that completes
without cancellation they sum to `totalImages`. -/
theorem sort_photos_stats_invariant (inp : SortInput) :
    ((sort_photos inp).1.classified = imagesProcessed inp)
    ∧ ((∀ i, inp.cancelled i = false) →
        (sort_photos inp).1.classified = (sort_photos inp).1.total_images)
    ∧ (∀ (valid : List Location) (dist : GPSCoordinates → GPSCoordinates → ℚ) (maxD : ℚ)
        (out : List String) (cm : Bool) (img : Image) (st : RunState),
        ((classifyImage valid dist maxD out cm img st).stats.sorted_images
              = st.stats.sorted_images + 1
          ∧ (classifyImage valid dist maxD out cm img st).stats.no_gps_images
              = st.stats.no_gps_images
          ∧ (classifyImage valid dist maxD out cm img st).stats.no_match_images
              = st.stats.no_match_images)
        ∨ ((classifyImage valid dist maxD out cm img st).stats.sorted_images
              = st.stats.sorted_images
          ∧ (classifyImage valid dist maxD out cm img st).stats.no_gps_images
              = st.stats.no_gps_images + 1
          ∧ (classifyImage valid dist maxD out cm img st).stats.no_match_images
              = st.stats.no_match_images)
        ∨ ((classifyImage valid dist maxD out cm img st).stats.sorted_images
              = st.stats.sorted_images
          ∧ (classifyImage valid dist maxD out cm img st).stats.no_gps_images
              = st.stats.no_gps_images
          ∧ (classifyImage valid dist maxD out cm img st).stats.no_match_images
              = st.stats.no_match_images + 1)) := by
  refine ⟨?_, ?_, ?_⟩
  · simp only [sort_photos, imagesProcessed]
    cases hg : geocodeLoop inp.geocode inp.cancelled inp.addresses 0 [] with
    | none => simp [Stats.classified]
    | some locations =>
      simp only
      by_cases hv : (locations.filter (fun l => l.coordinates.isSome)).isEmpty = true
      · rw [if_pos hv, if_pos hv]
        simp [Stats.classified]
      · rw [if_neg hv, if_neg hv]
        by_cases hi : inp.images.isEmpty = true
        · rw [if_pos hi, if_pos hi]
          simp [Stats.classified]
        · rw [if_neg hi, if_neg hi]
          have := (sortLoop_counts (locations.filter (fun l => l.coordinates.isSome))
            inp.dist inp.max_distance_km inp.output_folder inp.copy_mode inp.cancelled
            inp.images inp.addresses.length
            ⟨⟨inp.images.length, 0, 0, 0, []⟩, inp.initFs,
              [FsAction.scan, FsAction.mkdirOut inp.output_folder]⟩).2
          simpa [Stats.classified] using this
  · intro hnc
    have hg := geocodeLoop_complete inp.geocode inp.cancelled inp.addresses 0 []
      (fun j _ => hnc (0 + j))
    simp only [sort_photos, hg, List.nil_append]
    by_cases hv : ((mkLocations inp.geocode inp.addresses).filter
        (fun l => l.coordinates.isSome)).isEmpty = true
    · rw [if_pos hv]
      simp [Stats.classified]
    · rw [if_neg hv]
      by_cases hi : inp.images.isEmpty = true
      · rw [if_pos hi]
        simp [Stats.classified, List.isEmpty_iff.mp hi]
      · rw [if_neg hi]
        obtain ⟨h1, h2⟩ := sortLoop_counts ((mkLocations inp.geocode inp.addresses).filter
            (fun l => l.coordinates.isSome))
          inp.dist inp.max_distance_km inp.output_folder inp.copy_mode inp.cancelled
          inp.images inp.addresses.length
          ⟨⟨inp.images.length, 0, 0, 0, []⟩, inp.initFs,
            [FsAction.scan, FsAction.mkdirOut inp.output_folder]⟩
        simp only [h1, h2, processedCount_all inp.cancelled hnc]
        simp [Stats.classified]
  · intro valid dist maxD out cm img st
    unfold classifyImage
    cases hx : extract_gps_from_image img.data with
    | none => exact Or.inr (Or.inl (by simp))
    | some coords =>
      cases hf : find_closest_location dist coords valid maxD with
      | none => exact Or.inr (Or.inr (by simp [hf]))
      | some closest => exact Or.inl (by simp [hf])

/-- Witness for the hypothesis-bearing part of the C2 theorem: a run that is
never cancelled has its three counters summing to `totalImages`. -/
theorem sort_photos_stats_invariant_witness :
    (sort_photos ⟨["a"], fun _ => some ⟨0, 0⟩,
        [⟨["photos", "p.jpg"], "p", ".jpg", .noExif⟩],
        fun _ _ => 0, 1, false, fun _ => false, ["out"], []⟩).1.classified
      = (sort_photos ⟨["a"], fun _ => some ⟨0, 0⟩,
        [⟨["photos", "p.jpg"], "p", ".jpg", .noExif⟩],
        fun _ _ => 0, 1, false, fun _ => false, ["out"], []⟩).1.total_images :=
  (sort_photos_stats_invariant _).2.1 (fun _ => rfl)

theorem sortLoop_take (valid : List Location) (dist : GPSCoordinates → GPSCoordinates → ℚ)
    (maxD : ℚ) (out : List String) (cm : Bool) (cancelled : Nat → Bool) :
    ∀ (imgs : List Image) (N i : Nat) (st : RunState),
      N ≤ imgs.length →
      (∀ j, j < N → cancelled (i + j) = false) →
      (N = imgs.length ∨ cancelled (i + N) = true) →
      sortLoop valid dist maxD out cm cancelled imgs i st
        = (imgs.take N).foldl (fun st img => classifyImage valid dist maxD out cm img st) st
  | [], N, i, st, hle, _, _ => by
    have : N = 0 := by simpa using hle
    subst this
    rfl
  | img :: rest, N, i, st, hle, hbefore, hstop => by
    cases N with
    | zero =>
      have hc : cancelled i = true := by
        rcases hstop with h | h
        · simp at h
        · simpa using h
      rw [sortLoop, if_pos hc]
      rfl
    | succ N' =>
      have hc : cancelled i = false := by
        have := hbefore 0 (Nat.succ_pos N')
        simpa using this
      rw [sortLoop, if_neg (by simp [hc]), List.take_succ_cons, List.foldl_cons]
      exact sortLoop_take valid dist maxD out cm cancelled rest N' (i + 1)
        (classifyImage valid dist maxD out cm img st)
        (by simpa using hle)
        (fun j hj => by
          have := hbefore (j + 1) (Nat.succ_lt_succ hj)
          rw [show i + (j + 1) = i + 1 + j by omega] at this
          exact this)
        (by
          rcases hstop with h | h
          · exact Or.inl (by simpa using h)
          · exact Or.inr (by rw [show i + 1 + N' = i + (N' + 1) by omega]; exact h))

/-- Claim C3: if the geocoding phase completes, and the cancellation flag is
false for the first `N` image polls but true at poll `N + 1` (with `N <` the
number of discovered images), then `sort_photos` returns exactly the
statistics and the filesystem-action trace of processing the first `N` images
— it stops before classifying image `N + 1` and performs no further
filesystem mutation; in particular the three outcome counters sum to `N`. -/
theorem sort_photos_cancellation (inp : SortInput) (N : Nat)
    (hgeo : ∀ j, j < inp.addresses.length → inp.cancelled j = false)
    (hvalid : ((mkLocations inp.geocode inp.addresses).filter
        (fun l => l.coordinates.isSome)).isEmpty = false)
    (himgs : inp.images.isEmpty = false)
    (hN : N < inp.images.length)
    (hbefore : ∀ j, j < N → inp.cancelled (inp.addresses.length + j) = false)
    (hat : inp.cancelled (inp.addresses.length + N) = true) :
    sort_photos inp
        = (((inp.images.take N).foldl
            (fun st img => classifyImage
              ((mkLocations inp.geocode inp.addresses).filter (fun l => l.coordinates.isSome))
              inp.dist inp.max_distance_km inp.output_folder inp.copy_mode img st)
            ⟨⟨inp.images.length, 0, 0, 0, []⟩, inp.initFs,
              [FsAction.scan, FsAction.mkdirOut inp.output_folder]⟩).stats,
          ((inp.images.take N).foldl
            (fun st img => classifyImage
              ((mkLocations inp.geocode inp.addresses).filter (fun l => l.coordinates.isSome))
              inp.dist inp.max_distance_km inp.output_folder inp.copy_mode img st)
            ⟨⟨inp.images.length, 0, 0, 0, []⟩, inp.initFs,
              [FsAction.scan, FsAction.mkdirOut inp.output_folder]⟩).acts)
      ∧ (sort_photos inp).1.classified = N := by
  have hg := geocodeLoop_complete inp.geocode inp.cancelled inp.addresses 0 [] (fun j hj => by
    have := hgeo j hj
    simpa using this)
  have hloop := sortLoop_take ((mkLocations inp.geocode inp.addresses).filter
      (fun l => l.coordinates.isSome))
    inp.dist inp.max_distance_km inp.output_folder inp.copy_mode inp.cancelled
    inp.images N inp.addresses.length
    ⟨⟨inp.images.length, 0, 0, 0, []⟩, inp.initFs,
      [FsAction.scan, FsAction.mkdirOut inp.output_folder]⟩
    (Nat.le_of_lt hN) hbefore (Or.inr hat)
  constructor
  · simp only [sort_photos, hg, List.nil_append, hvalid, Bool.false_eq_true, if_false, himgs,
      hloop]
  · have hsum : (sort_photos inp).1.classified = imagesProcessed inp :=
      (sort_photos_stats_invariant inp).1
    rw [hsum]
    simp only [imagesProcessed, hg, List.nil_append, hvalid, Bool.false_eq_true, if_false, himgs]
    have hcount : ∀ (imgs : List Image) (N i : Nat), N ≤ imgs.length →
        (∀ j, j < N → inp.cancelled (i + j) = false) →
        (N = imgs.length ∨ inp.cancelled (i + N) = true) →
        processedCount inp.cancelled imgs i = N := by
      intro imgs
      induction imgs with
      | nil =>
        intro N i hle _ _
        have : N = 0 := by simpa using hle
        subst this
        rfl
      | cons img rest ih =>
        intro N i hle hb hs
        cases N with
        | zero =>
          have hc : inp.cancelled i = true := by
            rcases hs with h | h
            · simp at h
            · simpa using h
          rw [processedCount, if_pos hc]
        | succ N' =>
          have hc : inp.cancelled i = false := by
            have := hb 0 (Nat.succ_pos N')
            simpa using this
          rw [processedCount, if_neg (by simp [hc])]
          rw [ih N' (i + 1) (by simpa using hle)
            (fun j hj => by
              have := hb (j + 1) (Nat.succ_lt_succ hj)
              rw [show i + (j + 1) = i + 1 + j by omega] at this
              exact this)
            (by
              rcases hs with h | h
              · exact Or.inl (by simpa using h)
              · exact Or.inr (by rw [show i + 1 + N' = i + (N' + 1) by omega]; exact h))]
    exact hcount inp.images N inp.addresses.length (Nat.le_of_lt hN) hbefore (Or.inr hat)

/-- A concrete run for the cancellation claim: one address, two images, the
flag becomes true at the poll before the second image. -/
def cancelInput : SortInput :=
  { addresses := ["a"]
  , geocode := fun _ => some ⟨0, 0⟩
  , images := [⟨["photos", "1", "p.jpg"], "p", ".jpg", .noExif⟩,
               ⟨["photos", "2", "q.jpg"], "q", ".jpg", .noExif⟩]
  , dist := fun _ _ => 0
  , max_distance_km := 1
  , copy_mode := false
  , cancelled := fun i => decide (i = 2)
  , output_folder := ["out"]
  , initFs := [] }

/-- Witness for the C3 theorem: with cancellation firing after 1 of 2 images,
the returned counters sum to exactly 1. -/
theorem sort_photos_cancellation_witness :
    (sort_photos cancelInput).1.classified = 1 :=
  (sort_photos_cancellation cancelInput 1 (by decide) (by decide) (by decide) (by decide)
    (by decide) (by decide)).2

/-- Claim C7: when no address resolves to a coordinate and geocoding is not
cancelled, `sort_photos` returns the all-zero statistics (in particular
`sortedImages = 0` and `noMatchImages = 0`) and performs no filesystem action
at all: no discovery scan, no folder creation, no placement. -/
theorem sort_photos_no_valid_locations (inp : SortInput)
    (hfail : ∀ a ∈ inp.addresses, inp.geocode a = none)
    (hnc : ∀ j, j < inp.addresses.length → inp.cancelled j = false) :
    sort_photos inp = (⟨0, 0, 0, 0, []⟩, []) := by
  have hg := geocodeLoop_complete inp.geocode inp.cancelled inp.addresses 0 [] (fun j hj => by
    have := hnc j hj
    simpa using this)
  have hempty : ((mkLocations inp.geocode inp.addresses).filter
      (fun l => l.coordinates.isSome)).isEmpty = true := by
    rw [List.isEmpty_iff, List.filter_eq_nil_iff]
    intro l hl
    unfold mkLocations at hl
    obtain ⟨a, ha, rfl⟩ := List.mem_map.mp hl
    simp [hfail a ha]
  simp only [sort_photos, hg, List.nil_append, hempty, if_true]

/-- A concrete run for the zero-valid-locations claim: one unresolvable
address, one image present in the source tree. -/
def noValidInput : SortInput :=
  { addresses := ["x"]
  , geocode := fun _ => none
  , images := [⟨["photos", "p.jpg"], "p", ".jpg", .noExif⟩]
  , dist := fun _ _ => 0
  , max_distance_km := 1
  , copy_mode := false
  , cancelled := fun _ => false
  , output_folder := ["out"]
  , initFs := [] }

/-- Witness for the C7 theorem at a concrete input: one unresolvable address
and one image, which is never touched. -/
theorem sort_photos_no_valid_locations_witness :
    sort_photos noValidInput = (⟨0, 0, 0, 0, []⟩, []) :=
  sort_photos_no_valid_locations noValidInput (by decide) (by decide)

/-- A concrete run refuting claim C1: a file named `p.jpg` already exists in
`_no_gps_data`, and one GPS-less image also named `p.jpg` is placed there. -/
def overwriteInput : SortInput :=
  { addresses := ["a"]
  , geocode := fun _ => some ⟨0, 0⟩
  , images := [⟨["photos", "p.jpg"], "p", ".jpg", .noExif⟩]
  , dist := fun _ _ => 0
  , max_distance_km := 1
  , copy_mode := false
  , cancelled := fun _ => false
  , output_folder := ["out"]
  , initFs := [["out", "_no_gps_data", "p.jpg"]] }

/-- Claim C1 counterexample: although `out/_no_gps_data/p.jpg` already
exists, the GPS-less image `p.jpg` is moved to exactly that path — no `_1`
suffix is tried for the `_no_gps_data` destination, so the existing file is
overwritten.  The collision-avoidance loop exists only in the
matched-location branch of the source. -/
theorem sort_photos_no_gps_overwrites :
    sort_photos overwriteInput
        = (⟨1, 0, 1, 0, []⟩,
           [FsAction.scan, FsAction.mkdirOut ["out"],
            FsAction.mkdir ["out", "_no_gps_data"],
            FsAction.move ["photos", "p.jpg"] ["out", "_no_gps_data", "p.jpg"]])
      ∧ ["out", "_no_gps_data", "p.jpg"] ∈ overwriteInput.initFs := by
  constructor
  · rfl
  · decide

/-- Claim C1 as amended: collision avoidance applies only when the chosen
destination folder is a matched location's folder — there the conflict loop
appends `_1`, `_2`, … until a name not yet present is found, so a matched
placement never overwrites an existing file; for the `_no_gps_data` and
`_unknown_location` destinations the image's original filename is used
unconditionally, whether or not a file of that name already exists. -/
theorem sort_photos_collision_avoidance_amended :
    (∀ (fs : List (List String)) (folder : List String) (stem sfx : String),
        collisionLoop fs folder stem sfx (pathJoin folder (stem ++ sfx)) 1 (fs.length + 1) ∉ fs)
    ∧ (∀ (valid : List Location) (dist : GPSCoordinates → GPSCoordinates → ℚ) (maxD : ℚ)
        (out : List String) (cm : Bool) (img : Image) (st : RunState),
        extract_gps_from_image img.data = none →
        (classifyImage valid dist maxD out cm img st).acts
          = st.acts ++ [FsAction.mkdir (pathJoin out "_no_gps_data"),
              (place cm img.src (pathJoin (pathJoin out "_no_gps_data") img.name) st.fs).2])
    ∧ (∀ (valid : List Location) (dist : GPSCoordinates → GPSCoordinates → ℚ) (maxD : ℚ)
        (out : List String) (cm : Bool) (img : Image) (st : RunState)
        (coords : GPSCoordinates),
        extract_gps_from_image img.data = some coords →
        find_closest_location dist coords valid maxD = none →
        (classifyImage valid dist maxD out cm img st).acts
          = st.acts ++ [FsAction.mkdir (pathJoin out "_unknown_location"),
              (place cm img.src (pathJoin (pathJoin out "_unknown_location") img.name) st.fs).2])
    ∧ (∀ (valid : List Location) (dist : GPSCoordinates → GPSCoordinates → ℚ) (maxD : ℚ)
        (out : List String) (cm : Bool) (img : Image) (st : RunState)
        (coords : GPSCoordinates) (closest : Location),
        extract_gps_from_image img.data = some coords →
        find_closest_location dist coords valid maxD = some closest →
        (classifyImage valid dist maxD out cm img st).acts
          = st.acts ++ [FsAction.mkdir (pathJoin out closest.name),
              (place cm img.src (collisionLoop st.fs (pathJoin out closest.name) img.stem
                img.suffix (pathJoin (pathJoin out closest.name) img.name) 1
                (st.fs.length + 1)) st.fs).2]
        ∧ collisionLoop st.fs (pathJoin out closest.name) img.stem img.suffix
            (pathJoin (pathJoin out closest.name) img.name) 1 (st.fs.length + 1) ∉ st.fs) := by
  refine ⟨?_, ?_, ?_, ?_⟩
  · exact collisionLoop_not_mem
  · intro valid dist maxD out cm img st hx
    unfold classifyImage
    rw [hx]
  · intro valid dist maxD out cm img st coords hx hf
    unfold classifyImage
    simp [hx, hf]
  · intro valid dist maxD out cm img st coords closest hx hf
    refine ⟨?_, ?_⟩
    · unfold classifyImage
      simp [hx, hf]
    · exact collisionLoop_not_mem st.fs (pathJoin out closest.name) img.stem img.suffix

/-- Witness for the amended C1 theorem: a matched image named `p.jpg`, with
`out/a/p.jpg` already present, lands at `out/a/p_1.jpg` — a path that was not
yet present. -/
theorem sort_photos_collision_avoidance_amended_witness :
    (classifyImage [⟨"a", "a", some ⟨0, 0⟩⟩] (fun _ _ => 0) 1 ["out"] false
        ⟨["photos", "p.jpg"], "p", ".jpg",
          .exifData (some ⟨some (.plain 0 0 0), some "N", some (.plain 0 0 0), some "N"⟩)⟩
        ⟨⟨1, 0, 0, 0, []⟩, [["out", "a", "p.jpg"]], []⟩).acts
      = [FsAction.mkdir ["out", "a"],
         FsAction.move ["photos", "p.jpg"] ["out", "a", "p_1.jpg"]]
    ∧ ["out", "a", "p_1.jpg"] ∉ [["out", "a", "p.jpg"]] := by
  have hx : extract_gps_from_image
      (ImageData.exifData (some ⟨some (.plain 0 0 0), some "N", some (.plain 0 0 0), some "N"⟩))
      = some ⟨0, 0⟩ := by
    simp only [extract_gps_from_image, extract_gps_inner, dms_to_decimal]
    norm_num
  have hf : find_closest_location (fun _ _ => 0) (⟨0, 0⟩ : GPSCoordinates)
      [⟨"a", "a", some ⟨0, 0⟩⟩] 1 = some ⟨"a", "a", some ⟨0, 0⟩⟩ := by
    simp only [find_closest_location, findClosestLoop]
    norm_num
  have h := sort_photos_collision_avoidance_amended.2.2.2
    [⟨"a", "a", some ⟨0, 0⟩⟩] (fun _ _ => 0) 1 ["out"] false
    ⟨["photos", "p.jpg"], "p", ".jpg",
      .exifData (some ⟨some (.plain 0 0 0), some "N", some (.plain 0 0 0), some "N"⟩)⟩
    ⟨⟨1, 0, 0, 0, []⟩, [["out", "a", "p.jpg"]], []⟩ ⟨0, 0⟩ ⟨"a", "a", some ⟨0, 0⟩⟩
    hx hf
  refine ⟨?_, by decide⟩
  rw [h.1]
  decide
